import Mathlib

/-!
Shallow embedding of the `braidpool/rust-bitcoin` sources under verification:
`bitcoin/src/network.rs` (the `Network` enumeration and its four
forward/reverse mappings) and `io/src/bridge.rs` (the `FromStd`/`ToStd`
bridging adapters and the blanket bridge implementations).

Machine integers are modelled as `UInt8`/`Nat`; Rust `Result` is `Except`;
`&mut self` methods are modelled by explicit state passing. Types defined by
the repository outside the verified sources (the `Magic` and `ChainHash`
constant tables, the core io error type and trait defaults) are modelled from
the specification and marked as such in their doc comments.
-/

namespace RustBitcoin

/-- Decidable equality of `Except` results, so that concrete runs of the
embedded fallible functions can be checked by `decide`. -/
instance {ε α : Type _} [DecidableEq ε] [DecidableEq α] : DecidableEq (Except ε α) := fun a b =>
  match a, b with
  | .ok x, .ok y =>
      if h : x = y then isTrue (congrArg Except.ok h)
      else isFalse (fun he => h (Except.ok.inj he))
  | .error x, .error y =>
      if h : x = y then isTrue (congrArg Except.error h)
      else isFalse (fun he => h (Except.error.inj he))
  | .ok _, .error _ => isFalse (fun he => Except.noConfusion he)
  | .error _, .ok _ => isFalse (fun he => Except.noConfusion he)

/-- The cryptocurrency network to act on (`network.rs`, `enum Network`). -/
inductive Network where
  | Bitcoin
  | Testnet
  | Testnet4
  | Signet
  | Regtest
  | CPUNet
deriving DecidableEq, Repr

/-- What kind of network we are on (`network.rs`, `enum NetworkKind`). -/
inductive NetworkKind where
  | Main
  | Test
deriving DecidableEq, Repr

/-- `NetworkKind::is_mainnet`: `*self == NetworkKind::Main`. -/
def NetworkKind.is_mainnet (k : NetworkKind) : Bool :=
  decide (k = NetworkKind.Main)

/-- `impl From<Network> for NetworkKind` (`network.rs` lines 50-59). -/
def NetworkKind.ofNetwork : Network → NetworkKind
  | .Bitcoin => .Main
  | .Testnet | .Testnet4 | .Signet | .Regtest | .CPUNet => .Test

/-- An error in parsing network string (`network.rs`, `ParseNetworkError`). -/
structure ParseNetworkError where
  input : String
deriving DecidableEq, Repr

/-- `Network::as_display_str` (`network.rs` lines 198-207). -/
def Network.as_display_str : Network → String
  | .Bitcoin => "bitcoin"
  | .Testnet => "testnet"
  | .Testnet4 => "testnet4"
  | .Signet => "signet"
  | .Regtest => "regtest"
  | .CPUNet => "cpunet"

/-- `impl FromStr for Network` (`network.rs` lines 270-286): a match over the
six display strings, any other string produces `ParseNetworkError(s)`. -/
def Network.from_str (s : String) : Except ParseNetworkError Network :=
  if s = "bitcoin" then .ok .Bitcoin
  else if s = "testnet" then .ok .Testnet
  else if s = "testnet4" then .ok .Testnet4
  else if s = "signet" then .ok .Signet
  else if s = "regtest" then .ok .Regtest
  else if s = "cpunet" then .ok .CPUNet
  else .error ⟨s⟩

/-- `Network::to_core_arg` (`network.rs` lines 121-131). -/
def Network.to_core_arg : Network → String
  | .Bitcoin => "main"
  | .Testnet => "test"
  | .Testnet4 => "testnet4"
  | .Signet => "signet"
  | .Regtest => "regtest"
  | .CPUNet => "cpunet"

/-- `Network::from_core_arg` (`network.rs` lines 142-155). -/
def Network.from_core_arg (s : String) : Except ParseNetworkError Network :=
  if s = "main" then .ok .Bitcoin
  else if s = "test" then .ok .Testnet
  else if s = "testnet4" then .ok .Testnet4
  else if s = "signet" then .ok .Signet
  else if s = "regtest" then .ok .Regtest
  else if s = "cpunet" then .ok .CPUNet
  else .error ⟨s⟩

/-- Modelled from the spec: the `Magic` type of the `p2p` module (not under
the verified sources), "a fixed 4-byte sequence prefixed to wire messages to
identify which protocol instance they belong to". -/
structure Magic where
  b0 : UInt8
  b1 : UInt8
  b2 : UInt8
  b3 : UInt8
deriving DecidableEq, Repr

/-- `Magic::from_bytes` on the four bytes of the array. -/
def Magic.from_bytes (a b c d : UInt8) : Magic := ⟨a, b, c, d⟩

/-- Modelled from the spec: the per-network magic constants of the `p2p`
module (not under the verified sources). The byte values are fixed by the
spec's concrete scenario ("bitcoin" serializes to `F9 BE B4 D9`) and by the
serialization tests in `network.rs` (lines 333-359). -/
def Network.magic : Network → Magic
  | .Bitcoin => ⟨0xF9, 0xBE, 0xB4, 0xD9⟩
  | .Testnet => ⟨0x0B, 0x11, 0x09, 0x07⟩
  | .Testnet4 => ⟨0x1C, 0x16, 0x3F, 0x28⟩
  | .Signet => ⟨0x0A, 0x03, 0xCF, 0x40⟩
  | .Regtest => ⟨0xFA, 0xBF, 0xB5, 0xDA⟩
  | .CPUNet => ⟨0x63, 0x70, 0x75, 0x6E⟩

/-- Modelled from the spec: `Network::from_magic` (`network.rs` line 96)
delegates to `TryFrom<Magic> for Network` of the `p2p` module (not under the
verified sources) and drops the error with `.ok()`; the reverse lookup maps
each known magic back to its variant and any other magic to `None`. -/
def Network.from_magic (m : Magic) : Option Network :=
  if m = Network.magic .Bitcoin then some .Bitcoin
  else if m = Network.magic .Testnet then some .Testnet
  else if m = Network.magic .Testnet4 then some .Testnet4
  else if m = Network.magic .Signet then some .Signet
  else if m = Network.magic .Regtest then some .Regtest
  else if m = Network.magic .CPUNet then some .CPUNet
  else none

/-- Modelled from the spec: `ChainHash` of the `constants` module (not under
the verified sources), "a fixed identifying hash distinguishing one protocol
instance's initial state from another's"; kept opaque as a tag since the
concrete 32-byte values are not in the verified sources. -/
structure ChainHash where
  tag : Nat
deriving DecidableEq, Repr

/-- Modelled from the spec: the six distinct genesis chain-hash constants. -/
def ChainHash.BITCOIN : ChainHash := ⟨0⟩

/-- Modelled from the spec: genesis chain hash of testnet3. -/
def ChainHash.TESTNET3 : ChainHash := ⟨1⟩

/-- Modelled from the spec: genesis chain hash of testnet4. -/
def ChainHash.TESTNET4 : ChainHash := ⟨2⟩

/-- Modelled from the spec: genesis chain hash of signet. -/
def ChainHash.SIGNET : ChainHash := ⟨3⟩

/-- Modelled from the spec: genesis chain hash of regtest. -/
def ChainHash.REGTEST : ChainHash := ⟨4⟩

/-- Modelled from the spec: genesis chain hash of cpunet. -/
def ChainHash.CPUNET : ChainHash := ⟨5⟩

/-- Modelled from the spec: `Network::chain_hash` (`network.rs` line 168)
delegates to `ChainHash::using_genesis_block_const` (not under the verified
sources), which returns the network's genesis chain-hash constant. -/
def Network.chain_hash : Network → ChainHash
  | .Bitcoin => ChainHash.BITCOIN
  | .Testnet => ChainHash.TESTNET3
  | .Testnet4 => ChainHash.TESTNET4
  | .Signet => ChainHash.SIGNET
  | .Regtest => ChainHash.REGTEST
  | .CPUNet => ChainHash.CPUNET

/-- Error in parsing network from chain hash (`network.rs`,
`UnknownChainHashError`). -/
structure UnknownChainHashError where
  hash : ChainHash
deriving DecidableEq, Repr

/-- `impl TryFrom<ChainHash> for Network` (`network.rs` lines 310-325): a
match over the six chain-hash constants, anything else is
`UnknownChainHashError(chain_hash)`. -/
def Network.try_from_chain_hash (h : ChainHash) : Except UnknownChainHashError Network :=
  if h = ChainHash.BITCOIN then .ok .Bitcoin
  else if h = ChainHash.TESTNET3 then .ok .Testnet
  else if h = ChainHash.TESTNET4 then .ok .Testnet4
  else if h = ChainHash.SIGNET then .ok .Signet
  else if h = ChainHash.REGTEST then .ok .Regtest
  else if h = ChainHash.CPUNET then .ok .CPUNet
  else .error ⟨h⟩

/-- `Network::from_chain_hash` (`network.rs` lines 180-182). -/
def Network.from_chain_hash (h : ChainHash) : Option Network :=
  (Network.try_from_chain_hash h).toOption

/-! ## The io bridge (`io/src/bridge.rs`)

A value with host (`std`) capabilities or core capabilities is modelled as a
record of its methods over an explicit state type `σ` (the `&mut self`
receiver), one field per trait method. A method returning `Result<usize>`
becomes `σ → ... → Except _ (Nat × σ)`: the success payload plus the updated
receiver state.
-/

/-- Modelled from the spec: the host (`std::io`) error representation,
opaque beyond a kind (spec section 7). -/
structure HostError where
  kind : Nat
deriving DecidableEq, Repr

/-- Modelled from the spec: the core io error representation, opaque beyond
a kind (spec section 7). -/
structure CoreError where
  kind : Nat
deriving DecidableEq, Repr

/-- Modelled from the spec: the total host-to-core error conversion used by
`map_err(Into::into)` in `bridge.rs`; kind-preserving (spec section 7). -/
def CoreError.ofHost (e : HostError) : CoreError := ⟨e.kind⟩

/-- Modelled from the spec: the total core-to-host error conversion used by
`map_err(Into::into)` in `bridge.rs`; kind-preserving (spec section 7). -/
def HostError.ofCore (e : CoreError) : HostError := ⟨e.kind⟩

/-- A value with the host `std::io::Read` capability: `read` takes the
requested buffer length and returns the bytes placed in the buffer prefix;
`read_exact` must fill the whole buffer. -/
structure HostRead (σ : Type) where
  read : σ → Nat → Except HostError (List UInt8 × σ)
  read_exact : σ → Nat → Except HostError (List UInt8 × σ)

/-- A value with the host `std::io::BufRead` capability. -/
structure HostBufRead (σ : Type) where
  fill_buf : σ → Except HostError (List UInt8 × σ)
  consume : σ → Nat → σ

/-- A value with the host `std::io::Write` capability. -/
structure HostWrite (σ : Type) where
  write : σ → List UInt8 → Except HostError (Nat × σ)
  write_all : σ → List UInt8 → Except HostError σ
  flush : σ → Except HostError σ

/-- A value with the core `Read` capability (the core trait itself lives
outside the verified sources; its shape is the spec's section 6 surface). -/
structure CoreRead (σ : Type) where
  read : σ → Nat → Except CoreError (List UInt8 × σ)
  read_exact : σ → Nat → Except CoreError (List UInt8 × σ)

/-- A value with the core `BufRead` capability. -/
structure CoreBufRead (σ : Type) where
  fill_buf : σ → Except CoreError (List UInt8 × σ)
  consume : σ → Nat → σ

/-- A value with the core `Write` capability. -/
structure CoreWrite (σ : Type) where
  write : σ → List UInt8 → Except CoreError (Nat × σ)
  write_all : σ → List UInt8 → Except CoreError σ
  flush : σ → Except CoreError σ

/-- `FromStd<T>` (`bridge.rs` line 6): a single-field wrapper around the
inner value. -/
structure FromStd (T : Type) where
  inner : T
deriving DecidableEq, Repr

/-- `FromStd::new` (`bridge.rs` line 11). -/
def FromStd.new {T : Type} (v : T) : FromStd T := ⟨v⟩

/-- `FromStd::into_inner` (`bridge.rs` lines 15-17). -/
def FromStd.into_inner {T : Type} (w : FromStd T) : T := w.inner

/-- `FromStd::new_mut` (`bridge.rs` lines 33-36): reinterprets a reference to
the inner value as a reference to the wrapper; under the layout-identity
invariant this is value-preserving relabelling, modelled as wrapping the same
value. -/
def FromStd.new_mut {T : Type} (v : T) : FromStd T := ⟨v⟩

/-- `FromStd::new_boxed` (`bridge.rs` lines 41-44): reinterprets a heap
allocation of the inner value as one of the wrapper; modelled as wrapping the
same value. -/
def FromStd.new_boxed {T : Type} (v : T) : FromStd T := ⟨v⟩

/-- `impl Read for FromStd<T>` (`bridge.rs` lines 47-57):
`self.0.read(buf).map_err(Into::into)`, and likewise `read_exact`. -/
def FromStd.coreRead {σ : Type} (M : HostRead σ) : CoreRead (FromStd σ) where
  read := fun w n =>
    match M.read w.inner n with
    | .ok (bs, s) => .ok (bs, FromStd.new s)
    | .error e => .error (CoreError.ofHost e)
  read_exact := fun w n =>
    match M.read_exact w.inner n with
    | .ok (bs, s) => .ok (bs, FromStd.new s)
    | .error e => .error (CoreError.ofHost e)

/-- `impl BufRead for FromStd<T>` (`bridge.rs` lines 59-69):
`self.0.fill_buf().map_err(Into::into)` and `self.0.consume(amount)`. -/
def FromStd.coreBufRead {σ : Type} (M : HostBufRead σ) : CoreBufRead (FromStd σ) where
  fill_buf := fun w =>
    match M.fill_buf w.inner with
    | .ok (bs, s) => .ok (bs, FromStd.new s)
    | .error e => .error (CoreError.ofHost e)
  consume := fun w n => FromStd.new (M.consume w.inner n)

/-- `impl Write for FromStd<T>` (`bridge.rs` lines 71-86):
`self.0.write(buf).map_err(Into::into)`, and likewise `flush` and
`write_all`. -/
def FromStd.coreWrite {σ : Type} (M : HostWrite σ) : CoreWrite (FromStd σ) where
  write := fun w buf =>
    match M.write w.inner buf with
    | .ok (n, s) => .ok (n, FromStd.new s)
    | .error e => .error (CoreError.ofHost e)
  write_all := fun w buf =>
    match M.write_all w.inner buf with
    | .ok s => .ok (FromStd.new s)
    | .error e => .error (CoreError.ofHost e)
  flush := fun w =>
    match M.flush w.inner with
    | .ok s => .ok (FromStd.new s)
    | .error e => .error (CoreError.ofHost e)

/-- `impl std::io::Read for FromStd<T>` (`bridge.rs` lines 90-100): plain
`self.0.read(buf)`, no conversion. -/
def FromStd.hostRead {σ : Type} (M : HostRead σ) : HostRead (FromStd σ) where
  read := fun w n =>
    match M.read w.inner n with
    | .ok (bs, s) => .ok (bs, FromStd.new s)
    | .error e => .error e
  read_exact := fun w n =>
    match M.read_exact w.inner n with
    | .ok (bs, s) => .ok (bs, FromStd.new s)
    | .error e => .error e

/-- `impl std::io::BufRead for FromStd<T>` (`bridge.rs` lines 102-112). -/
def FromStd.hostBufRead {σ : Type} (M : HostBufRead σ) : HostBufRead (FromStd σ) where
  fill_buf := fun w =>
    match M.fill_buf w.inner with
    | .ok (bs, s) => .ok (bs, FromStd.new s)
    | .error e => .error e
  consume := fun w n => FromStd.new (M.consume w.inner n)

/-- `impl std::io::Write for FromStd<T>` (`bridge.rs` lines 114-129). -/
def FromStd.hostWrite {σ : Type} (M : HostWrite σ) : HostWrite (FromStd σ) where
  write := fun w buf =>
    match M.write w.inner buf with
    | .ok (n, s) => .ok (n, FromStd.new s)
    | .error e => .error e
  write_all := fun w buf =>
    match M.write_all w.inner buf with
    | .ok s => .ok (FromStd.new s)
    | .error e => .error e
  flush := fun w =>
    match M.flush w.inner with
    | .ok s => .ok (FromStd.new s)
    | .error e => .error e

/-- `ToStd<T>` (`bridge.rs` line 133): a single-field wrapper around the
inner value. -/
structure ToStd (T : Type) where
  inner : T
deriving DecidableEq, Repr

/-- `ToStd::new` (`bridge.rs` line 138). -/
def ToStd.new {T : Type} (v : T) : ToStd T := ⟨v⟩

/-- `ToStd::into_inner` (`bridge.rs` lines 142-144). -/
def ToStd.into_inner {T : Type} (w : ToStd T) : T := w.inner

/-- `ToStd::new_mut` (`bridge.rs` lines 160-163): value-preserving
relabelling, as for `FromStd.new_mut`. -/
def ToStd.new_mut {T : Type} (v : T) : ToStd T := ⟨v⟩

/-- `ToStd::new_boxed` (`bridge.rs` lines 168-171): value-preserving
relabelling of the heap allocation, as for `FromStd.new_boxed`. -/
def ToStd.new_boxed {T : Type} (v : T) : ToStd T := ⟨v⟩

/-- `impl std::io::Read for ToStd<T>` (`bridge.rs` lines 174-184):
`self.0.read(buf).map_err(Into::into)`, error converted core-to-host. -/
def ToStd.hostRead {σ : Type} (M : CoreRead σ) : HostRead (ToStd σ) where
  read := fun w n =>
    match M.read w.inner n with
    | .ok (bs, s) => .ok (bs, ToStd.new s)
    | .error e => .error (HostError.ofCore e)
  read_exact := fun w n =>
    match M.read_exact w.inner n with
    | .ok (bs, s) => .ok (bs, ToStd.new s)
    | .error e => .error (HostError.ofCore e)

/-- `impl std::io::BufRead for ToStd<T>` (`bridge.rs` lines 186-196). -/
def ToStd.hostBufRead {σ : Type} (M : CoreBufRead σ) : HostBufRead (ToStd σ) where
  fill_buf := fun w =>
    match M.fill_buf w.inner with
    | .ok (bs, s) => .ok (bs, ToStd.new s)
    | .error e => .error (HostError.ofCore e)
  consume := fun w n => ToStd.new (M.consume w.inner n)

/-- `impl std::io::Write for ToStd<T>` (`bridge.rs` lines 198-213). -/
def ToStd.hostWrite {σ : Type} (M : CoreWrite σ) : HostWrite (ToStd σ) where
  write := fun w buf =>
    match M.write w.inner buf with
    | .ok (n, s) => .ok (n, ToStd.new s)
    | .error e => .error (HostError.ofCore e)
  write_all := fun w buf =>
    match M.write_all w.inner buf with
    | .ok s => .ok (ToStd.new s)
    | .error e => .error (HostError.ofCore e)
  flush := fun w =>
    match M.flush w.inner with
    | .ok s => .ok (ToStd.new s)
    | .error e => .error (HostError.ofCore e)

/-- `impl Read for ToStd<T>` (`bridge.rs` lines 217-227): plain
`self.0.read(buf)`, no conversion. -/
def ToStd.coreRead {σ : Type} (M : CoreRead σ) : CoreRead (ToStd σ) where
  read := fun w n =>
    match M.read w.inner n with
    | .ok (bs, s) => .ok (bs, ToStd.new s)
    | .error e => .error e
  read_exact := fun w n =>
    match M.read_exact w.inner n with
    | .ok (bs, s) => .ok (bs, ToStd.new s)
    | .error e => .error e

/-- `impl BufRead for ToStd<T>` (`bridge.rs` lines 229-239). -/
def ToStd.coreBufRead {σ : Type} (M : CoreBufRead σ) : CoreBufRead (ToStd σ) where
  fill_buf := fun w =>
    match M.fill_buf w.inner with
    | .ok (bs, s) => .ok (bs, ToStd.new s)
    | .error e => .error e
  consume := fun w n => ToStd.new (M.consume w.inner n)

/-- `impl Read for std::io::BufReader<R>` (`bridge.rs` lines 258-261):
`Ok(std::io::Read::read(self, buf)?)` — the `?` passes the count through and
converts the error host-to-core. The host buffered reader itself is an
external collaborator, abstracted as any `HostRead`. -/
def BufReader.read {σ : Type} (M : HostRead σ) (s : σ) (n : Nat) :
    Except CoreError (List UInt8 × σ) :=
  match M.read s n with
  | .ok r => .ok r
  | .error e => .error (CoreError.ofHost e)

/-- `impl BufRead for std::io::BufReader<R>`, `fill_buf` (`bridge.rs`
line 265): `Ok(std::io::BufRead::fill_buf(self)?)`. -/
def BufReader.fill_buf {σ : Type} (M : HostBufRead σ) (s : σ) :
    Except CoreError (List UInt8 × σ) :=
  match M.fill_buf s with
  | .ok r => .ok r
  | .error e => .error (CoreError.ofHost e)

/-- `impl BufRead for std::io::BufReader<R>`, `consume` (`bridge.rs`
line 268): `std::io::BufRead::consume(self, amount)`, forwarded unchanged. -/
def BufReader.consume {σ : Type} (M : HostBufRead σ) (s : σ) (n : Nat) : σ :=
  M.consume s n

/-- The core `Sink` (defined outside the verified sources): a zero-size
marker whose writes discard all bytes (spec section 3). -/
structure Sink where
deriving DecidableEq, Repr

/-- `impl std::io::Write for Sink`, `write` (`bridge.rs` line 273):
`Ok(buf.len())`, state untouched. -/
def Sink.write (s : Sink) (buf : List UInt8) : Except HostError (Nat × Sink) :=
  .ok (buf.length, s)

/-- `impl std::io::Write for Sink`, `write_all` (`bridge.rs` line 276):
`Ok(())`. -/
def Sink.write_all (s : Sink) (_ : List UInt8) : Except HostError Sink :=
  .ok s

/-- `impl std::io::Write for Sink`, `flush` (`bridge.rs` line 279):
`Ok(())`. -/
def Sink.flush (s : Sink) : Except HostError Sink :=
  .ok s

/-- `impl Write for std::io::BufWriter<W>`, `write` (`bridge.rs` line 284):
`Ok(std::io::Write::write(self, buf)?)` — count through, error converted.
The host buffered writer is an external collaborator, abstracted as any
`HostWrite`. -/
def BufWriter.write {σ : Type} (M : HostWrite σ) (s : σ) (buf : List UInt8) :
    Except CoreError (Nat × σ) :=
  match M.write s buf with
  | .ok r => .ok r
  | .error e => .error (CoreError.ofHost e)

/-- `impl Write for std::io::BufWriter<W>`, `flush` (`bridge.rs` line 287):
`Ok(std::io::Write::flush(self)?)`. -/
def BufWriter.flush {σ : Type} (M : HostWrite σ) (s : σ) : Except CoreError σ :=
  match M.flush s with
  | .ok r => .ok r
  | .error e => .error (CoreError.ofHost e)

/-- Modelled from the spec: the error kind reported when a writer accepts
zero bytes of a non-empty buffer during `write_all` ("writes every byte or
fails", spec section 4.1). -/
def CoreError.writeZero : CoreError := ⟨1⟩

/-- Modelled from the spec: the core `Write` capability's provided
`write_all` (the core trait lives outside the verified sources): repeatedly
call `write`, dropping the accepted prefix, until the buffer is exhausted;
fail on a write error or on a write that accepts zero bytes (spec
section 4.1, "writes every byte or fails"). -/
def writeAllVia {σ : Type} (w : σ → List UInt8 → Except CoreError (Nat × σ))
    (s : σ) (buf : List UInt8) : Except CoreError σ :=
  if hb : buf = [] then .ok s
  else
    match w s buf with
    | .error e => .error e
    | .ok (n, s₁) =>
      if hn : n = 0 then .error CoreError.writeZero
      else writeAllVia w s₁ (buf.drop n)
termination_by buf.length
decreasing_by
  simp only [List.length_drop]
  exact Nat.sub_lt (List.length_pos.mpr hb) (Nat.pos_of_ne_zero hn)

/-- `impl Write for ToStd<T>` (`bridge.rs` lines 241-255). -/
def ToStd.coreWrite {σ : Type} (M : CoreWrite σ) : CoreWrite (ToStd σ) where
  write := fun w buf =>
    match M.write w.inner buf with
    | .ok (n, s) => .ok (n, ToStd.new s)
    | .error e => .error e
  write_all := fun w buf =>
    match M.write_all w.inner buf with
    | .ok s => .ok (ToStd.new s)
    | .error e => .error e
  flush := fun w =>
    match M.flush w.inner with
    | .ok s => .ok (ToStd.new s)
    | .error e => .error e

/-- A concrete host reader over state `Nat`, used to instantiate the adapter
theorems on concrete runs: reading `n` bytes yields `n` zero bytes and
advances the position. -/
def natHostRead : HostRead Nat where
  read := fun s n => .ok (List.replicate n 0, s + n)
  read_exact := fun s n => .ok (List.replicate n 0, s + n)

/-- A concrete host buffered reader over state `Nat`: the buffer always
holds the single byte `7`. -/
def natHostBufRead : HostBufRead Nat where
  fill_buf := fun s => .ok ([7], s)
  consume := fun s n => s + n

/-- A concrete host writer over state `Nat` that accepts every byte. -/
def natHostWrite : HostWrite Nat where
  write := fun s buf => .ok (buf.length, s + buf.length)
  write_all := fun s buf => .ok (s + buf.length)
  flush := fun s => .ok s

/-- A concrete always-failing host reader over state `Nat`. -/
def errHostRead : HostRead Nat where
  read := fun s _ => .error ⟨s⟩
  read_exact := fun s _ => .error ⟨s⟩

/-- A concrete always-failing host buffered reader over state `Nat`. -/
def errHostBufRead : HostBufRead Nat where
  fill_buf := fun s => .error ⟨s⟩
  consume := fun s n => s + n

/-- A concrete always-failing core reader over state `Nat`. -/
def errCoreRead : CoreRead Nat where
  read := fun s _ => .error ⟨s⟩
  read_exact := fun s _ => .error ⟨s⟩

/-- A concrete always-failing core buffered reader over state `Nat`. -/
def errCoreBufRead : CoreBufRead Nat where
  fill_buf := fun s => .error ⟨s⟩
  consume := fun s n => s + n

/-- A concrete always-failing core writer over state `Nat`. -/
def errCoreWrite : CoreWrite Nat where
  write := fun s _ => .error ⟨s⟩
  write_all := fun s _ => .error ⟨s⟩
  flush := fun s => .error ⟨s⟩

/-- A concrete always-failing host writer over state `Nat`. -/
def errHostWrite : HostWrite Nat where
  write := fun s _ => .error ⟨s⟩
  write_all := fun s _ => .error ⟨s⟩
  flush := fun s => .error ⟨s⟩

/-- A concrete host writer whose state is the log of accepted bytes,
appending everything it is given. -/
def logHostWrite : HostWrite (List UInt8) where
  write := fun s buf => .ok (buf.length, s ++ buf)
  write_all := fun s buf => .ok (s ++ buf)
  flush := fun s => .ok s

end RustBitcoin

namespace RustBitcoin

/-- C1: for every `Network` variant `n`, each of the four reverse mappings
inverts its forward mapping: `from_str` of the display string, `from_core_arg`
of `to_core_arg`, `try_from` of `chain_hash`, and `from_magic` of `magic` all
return `n` again. -/
theorem network_reverse_inverts_forward (n : Network) :
    Network.from_str n.as_display_str = .ok n ∧
    Network.from_core_arg n.to_core_arg = .ok n ∧
    Network.try_from_chain_hash n.chain_hash = .ok n ∧
    Network.from_magic n.magic = some n := by
  cases n <;> refine ⟨?_, ?_, ?_, ?_⟩ <;> decide

/-- C9: the Bitcoin variant's magic is exactly the byte sequence
`F9 BE B4 D9`, and `from_magic` of that exact magic yields `Bitcoin`. -/
theorem bitcoin_magic_bytes :
    Network.magic .Bitcoin = Magic.from_bytes 0xF9 0xBE 0xB4 0xD9 ∧
    Network.from_magic (Magic.from_bytes 0xF9 0xBE 0xB4 0xD9) = some .Bitcoin := by
  refine ⟨rfl, ?_⟩
  decide

/-- C2: any input not produced by a forward mapping is a caller-visible
error, never a default variant: `from_str` and `from_core_arg` on a string
that is no variant's name return `ParseNetworkError` carrying that string,
`try_from` on an unrecognized chain hash returns `UnknownChainHashError`
carrying that hash, and `from_magic` on an unrecognized magic returns
`none`. -/
theorem network_unknown_input_errors (s : String) (h : ChainHash) (m : Magic) :
    ((∀ n : Network, n.as_display_str ≠ s) →
      Network.from_str s = .error ⟨s⟩) ∧
    ((∀ n : Network, n.to_core_arg ≠ s) →
      Network.from_core_arg s = .error ⟨s⟩) ∧
    ((∀ n : Network, n.chain_hash ≠ h) →
      Network.try_from_chain_hash h = .error ⟨h⟩) ∧
    ((∀ n : Network, n.magic ≠ m) →
      Network.from_magic m = none) := by
  refine ⟨fun hd => ?_, fun hc => ?_, fun hh => ?_, fun hm => ?_⟩
  · have h1 := Ne.symm (hd .Bitcoin)
    have h2 := Ne.symm (hd .Testnet)
    have h3 := Ne.symm (hd .Testnet4)
    have h4 := Ne.symm (hd .Signet)
    have h5 := Ne.symm (hd .Regtest)
    have h6 := Ne.symm (hd .CPUNet)
    simp only [Network.as_display_str] at h1 h2 h3 h4 h5 h6
    simp [Network.from_str, h1, h2, h3, h4, h5, h6]
  · have h1 := Ne.symm (hc .Bitcoin)
    have h2 := Ne.symm (hc .Testnet)
    have h3 := Ne.symm (hc .Testnet4)
    have h4 := Ne.symm (hc .Signet)
    have h5 := Ne.symm (hc .Regtest)
    have h6 := Ne.symm (hc .CPUNet)
    simp only [Network.to_core_arg] at h1 h2 h3 h4 h5 h6
    simp [Network.from_core_arg, h1, h2, h3, h4, h5, h6]
  · have h1 := Ne.symm (hh .Bitcoin)
    have h2 := Ne.symm (hh .Testnet)
    have h3 := Ne.symm (hh .Testnet4)
    have h4 := Ne.symm (hh .Signet)
    have h5 := Ne.symm (hh .Regtest)
    have h6 := Ne.symm (hh .CPUNet)
    simp only [Network.chain_hash] at h1 h2 h3 h4 h5 h6
    simp [Network.try_from_chain_hash, h1, h2, h3, h4, h5, h6]
  · have h1 := Ne.symm (hm .Bitcoin)
    have h2 := Ne.symm (hm .Testnet)
    have h3 := Ne.symm (hm .Testnet4)
    have h4 := Ne.symm (hm .Signet)
    have h5 := Ne.symm (hm .Regtest)
    have h6 := Ne.symm (hm .CPUNet)
    simp [Network.from_magic, h1, h2, h3, h4, h5, h6]

/-- Witness for C2 at concrete unrecognized inputs: the string `"fakenet"`,
a chain hash distinct from all six genesis hashes, and the all-`0xFF`
magic. -/
theorem network_unknown_input_errors_witness :
    Network.from_str "fakenet" = .error ⟨"fakenet"⟩ ∧
    Network.from_core_arg "fakenet" = .error ⟨"fakenet"⟩ ∧
    Network.try_from_chain_hash ⟨6⟩ = .error ⟨⟨6⟩⟩ ∧
    Network.from_magic ⟨0xFF, 0xFF, 0xFF, 0xFF⟩ = none := by
  have h := network_unknown_input_errors "fakenet" ⟨6⟩ ⟨0xFF, 0xFF, 0xFF, 0xFF⟩
  exact ⟨h.1 (by intro n; cases n <;> decide), h.2.1 (by intro n; cases n <;> decide),
    h.2.2.1 (by intro n; cases n <;> decide), h.2.2.2 (by intro n; cases n <;> decide)⟩

/-- C3: the host-facing `Write` implementation of `Sink` succeeds
unconditionally — `write` returns the whole buffer length, `write_all` and
`flush` return unit — and the state it returns is the very state it was
given, so no call observably mutates anything. -/
theorem sink_write_always_succeeds (s : Sink) (buf : List UInt8) :
    Sink.write s buf = .ok (buf.length, s) ∧
    Sink.write_all s buf = .ok s ∧
    Sink.flush s = .ok s :=
  ⟨rfl, rfl, rfl⟩

/-- C5: unwrapping is the exact inverse of wrapping for both adapters, and
the borrowed (`new_mut`) and boxed (`new_boxed`) construction modes — value-
preserving relabellings under the layout-identity invariant — leave the
underlying value untouched. -/
theorem adapter_wrap_unwrap_roundtrip {T : Type} (v : T) :
    (FromStd.new v).into_inner = v ∧
    (ToStd.new v).into_inner = v ∧
    (FromStd.new_mut v).inner = v ∧
    (ToStd.new_mut v).inner = v ∧
    (FromStd.new_boxed v).inner = v ∧
    (ToStd.new_boxed v).inner = v :=
  ⟨rfl, rfl, rfl, rfl, rfl, rfl⟩

/-- C10: `NetworkKind.ofNetwork n` is mainnet exactly when `n` is `Bitcoin`;
every other variant maps to `NetworkKind.Test`, which is not mainnet. -/
theorem networkkind_mainnet_iff_bitcoin (n : Network) :
    ((NetworkKind.ofNetwork n).is_mainnet = true ↔ n = .Bitcoin) ∧
    (n = .Bitcoin ∨
      (NetworkKind.ofNetwork n = .Test ∧
        (NetworkKind.ofNetwork n).is_mainnet = false)) := by
  cases n <;> refine ⟨?_, ?_⟩ <;> decide

/-- C4: each core-capability method of `FromStd` invokes the corresponding
host method on the inner value and returns its successful result (bytes,
count, or state) unchanged, converting only the error host-to-core; each
host-facing method of `ToStd` invokes the corresponding core method,
returning the success value unchanged and converting the error
core-to-host. -/
theorem adapter_delegation_converts_only_errors {σ : Type}
    (R : HostRead σ) (B : HostBufRead σ) (W : HostWrite σ)
    (CR : CoreRead σ) (CB : CoreBufRead σ) (CW : CoreWrite σ)
    (s : σ) (n : Nat) (buf : List UInt8) :
    (∀ bs t, R.read s n = .ok (bs, t) →
      (FromStd.coreRead R).read (FromStd.new s) n = .ok (bs, FromStd.new t)) ∧
    (∀ e, R.read s n = .error e →
      (FromStd.coreRead R).read (FromStd.new s) n = .error (CoreError.ofHost e)) ∧
    (∀ bs t, R.read_exact s n = .ok (bs, t) →
      (FromStd.coreRead R).read_exact (FromStd.new s) n = .ok (bs, FromStd.new t)) ∧
    (∀ e, R.read_exact s n = .error e →
      (FromStd.coreRead R).read_exact (FromStd.new s) n = .error (CoreError.ofHost e)) ∧
    (∀ bs t, B.fill_buf s = .ok (bs, t) →
      (FromStd.coreBufRead B).fill_buf (FromStd.new s) = .ok (bs, FromStd.new t)) ∧
    (∀ e, B.fill_buf s = .error e →
      (FromStd.coreBufRead B).fill_buf (FromStd.new s) = .error (CoreError.ofHost e)) ∧
    ((FromStd.coreBufRead B).consume (FromStd.new s) n = FromStd.new (B.consume s n)) ∧
    (∀ k t, W.write s buf = .ok (k, t) →
      (FromStd.coreWrite W).write (FromStd.new s) buf = .ok (k, FromStd.new t)) ∧
    (∀ e, W.write s buf = .error e →
      (FromStd.coreWrite W).write (FromStd.new s) buf = .error (CoreError.ofHost e)) ∧
    (∀ t, W.write_all s buf = .ok t →
      (FromStd.coreWrite W).write_all (FromStd.new s) buf = .ok (FromStd.new t)) ∧
    (∀ e, W.write_all s buf = .error e →
      (FromStd.coreWrite W).write_all (FromStd.new s) buf = .error (CoreError.ofHost e)) ∧
    (∀ t, W.flush s = .ok t →
      (FromStd.coreWrite W).flush (FromStd.new s) = .ok (FromStd.new t)) ∧
    (∀ e, W.flush s = .error e →
      (FromStd.coreWrite W).flush (FromStd.new s) = .error (CoreError.ofHost e)) ∧
    (∀ bs t, CR.read s n = .ok (bs, t) →
      (ToStd.hostRead CR).read (ToStd.new s) n = .ok (bs, ToStd.new t)) ∧
    (∀ e, CR.read s n = .error e →
      (ToStd.hostRead CR).read (ToStd.new s) n = .error (HostError.ofCore e)) ∧
    (∀ bs t, CR.read_exact s n = .ok (bs, t) →
      (ToStd.hostRead CR).read_exact (ToStd.new s) n = .ok (bs, ToStd.new t)) ∧
    (∀ e, CR.read_exact s n = .error e →
      (ToStd.hostRead CR).read_exact (ToStd.new s) n = .error (HostError.ofCore e)) ∧
    (∀ bs t, CB.fill_buf s = .ok (bs, t) →
      (ToStd.hostBufRead CB).fill_buf (ToStd.new s) = .ok (bs, ToStd.new t)) ∧
    (∀ e, CB.fill_buf s = .error e →
      (ToStd.hostBufRead CB).fill_buf (ToStd.new s) = .error (HostError.ofCore e)) ∧
    ((ToStd.hostBufRead CB).consume (ToStd.new s) n = ToStd.new (CB.consume s n)) ∧
    (∀ k t, CW.write s buf = .ok (k, t) →
      (ToStd.hostWrite CW).write (ToStd.new s) buf = .ok (k, ToStd.new t)) ∧
    (∀ e, CW.write s buf = .error e →
      (ToStd.hostWrite CW).write (ToStd.new s) buf = .error (HostError.ofCore e)) ∧
    (∀ t, CW.write_all s buf = .ok t →
      (ToStd.hostWrite CW).write_all (ToStd.new s) buf = .ok (ToStd.new t)) ∧
    (∀ e, CW.write_all s buf = .error e →
      (ToStd.hostWrite CW).write_all (ToStd.new s) buf = .error (HostError.ofCore e)) ∧
    (∀ t, CW.flush s = .ok t →
      (ToStd.hostWrite CW).flush (ToStd.new s) = .ok (ToStd.new t)) ∧
    (∀ e, CW.flush s = .error e →
      (ToStd.hostWrite CW).flush (ToStd.new s) = .error (HostError.ofCore e)) := by
  refine ⟨fun bs t h => ?_, fun e h => ?_, fun bs t h => ?_, fun e h => ?_,
    fun bs t h => ?_, fun e h => ?_, ?_, fun k t h => ?_, fun e h => ?_,
    fun t h => ?_, fun e h => ?_, fun t h => ?_, fun e h => ?_,
    fun bs t h => ?_, fun e h => ?_, fun bs t h => ?_, fun e h => ?_,
    fun bs t h => ?_, fun e h => ?_, ?_, fun k t h => ?_, fun e h => ?_,
    fun t h => ?_, fun e h => ?_, fun t h => ?_, fun e h => ?_⟩ <;>
  simp_all [FromStd.coreRead, FromStd.coreBufRead, FromStd.coreWrite,
    ToStd.hostRead, ToStd.hostBufRead, ToStd.hostWrite, FromStd.new, ToStd.new]

/-- Witness for C4 on concrete runs: a successful 2-byte read through the
core face of `FromStd` over `natHostRead`, and a failing write through the
host face of `ToStd` over `errCoreWrite` with the error converted. -/
theorem adapter_delegation_converts_only_errors_witness :
    (FromStd.coreRead natHostRead).read (FromStd.new 0) 2 = .ok ([0, 0], FromStd.new 2) ∧
    (ToStd.hostWrite errCoreWrite).write (ToStd.new 5) [1, 2] = .error (HostError.ofCore ⟨5⟩) := by
  have h1 := adapter_delegation_converts_only_errors natHostRead natHostBufRead
    natHostWrite errCoreRead errCoreBufRead errCoreWrite 0 2 [1, 2]
  have h2 := adapter_delegation_converts_only_errors natHostRead natHostBufRead
    natHostWrite errCoreRead errCoreBufRead errCoreWrite 5 2 [1, 2]
  obtain ⟨-, -, -, -, -, -, -, -, -, -, -, -, -, -, -, -, -, -, -, -, -, w2, -, -, -, -⟩ := h2
  exact ⟨h1.1 [0, 0] 2 (by decide), w2 ⟨5⟩ (by decide)⟩

/-- C6: each adapter exposes the other capability set as a transparent
pass-through — every host-facing method on `FromStd` returns exactly what
the same method on the inner value returns, success and error alike with no
conversion, and likewise every core-facing method on `ToStd`. -/
theorem adapter_other_face_passthrough {σ : Type}
    (R : HostRead σ) (B : HostBufRead σ) (W : HostWrite σ)
    (CR : CoreRead σ) (CB : CoreBufRead σ) (CW : CoreWrite σ)
    (s : σ) (n : Nat) (buf : List UInt8) :
    (∀ bs t, R.read s n = .ok (bs, t) →
      (FromStd.hostRead R).read (FromStd.new s) n = .ok (bs, FromStd.new t)) ∧
    (∀ e, R.read s n = .error e →
      (FromStd.hostRead R).read (FromStd.new s) n = .error e) ∧
    (∀ bs t, R.read_exact s n = .ok (bs, t) →
      (FromStd.hostRead R).read_exact (FromStd.new s) n = .ok (bs, FromStd.new t)) ∧
    (∀ e, R.read_exact s n = .error e →
      (FromStd.hostRead R).read_exact (FromStd.new s) n = .error e) ∧
    (∀ bs t, B.fill_buf s = .ok (bs, t) →
      (FromStd.hostBufRead B).fill_buf (FromStd.new s) = .ok (bs, FromStd.new t)) ∧
    (∀ e, B.fill_buf s = .error e →
      (FromStd.hostBufRead B).fill_buf (FromStd.new s) = .error e) ∧
    ((FromStd.hostBufRead B).consume (FromStd.new s) n = FromStd.new (B.consume s n)) ∧
    (∀ k t, W.write s buf = .ok (k, t) →
      (FromStd.hostWrite W).write (FromStd.new s) buf = .ok (k, FromStd.new t)) ∧
    (∀ e, W.write s buf = .error e →
      (FromStd.hostWrite W).write (FromStd.new s) buf = .error e) ∧
    (∀ t, W.write_all s buf = .ok t →
      (FromStd.hostWrite W).write_all (FromStd.new s) buf = .ok (FromStd.new t)) ∧
    (∀ e, W.write_all s buf = .error e →
      (FromStd.hostWrite W).write_all (FromStd.new s) buf = .error e) ∧
    (∀ t, W.flush s = .ok t →
      (FromStd.hostWrite W).flush (FromStd.new s) = .ok (FromStd.new t)) ∧
    (∀ e, W.flush s = .error e →
      (FromStd.hostWrite W).flush (FromStd.new s) = .error e) ∧
    (∀ bs t, CR.read s n = .ok (bs, t) →
      (ToStd.coreRead CR).read (ToStd.new s) n = .ok (bs, ToStd.new t)) ∧
    (∀ e, CR.read s n = .error e →
      (ToStd.coreRead CR).read (ToStd.new s) n = .error e) ∧
    (∀ bs t, CR.read_exact s n = .ok (bs, t) →
      (ToStd.coreRead CR).read_exact (ToStd.new s) n = .ok (bs, ToStd.new t)) ∧
    (∀ e, CR.read_exact s n = .error e →
      (ToStd.coreRead CR).read_exact (ToStd.new s) n = .error e) ∧
    (∀ bs t, CB.fill_buf s = .ok (bs, t) →
      (ToStd.coreBufRead CB).fill_buf (ToStd.new s) = .ok (bs, ToStd.new t)) ∧
    (∀ e, CB.fill_buf s = .error e →
      (ToStd.coreBufRead CB).fill_buf (ToStd.new s) = .error e) ∧
    ((ToStd.coreBufRead CB).consume (ToStd.new s) n = ToStd.new (CB.consume s n)) ∧
    (∀ k t, CW.write s buf = .ok (k, t) →
      (ToStd.coreWrite CW).write (ToStd.new s) buf = .ok (k, ToStd.new t)) ∧
    (∀ e, CW.write s buf = .error e →
      (ToStd.coreWrite CW).write (ToStd.new s) buf = .error e) ∧
    (∀ t, CW.write_all s buf = .ok t →
      (ToStd.coreWrite CW).write_all (ToStd.new s) buf = .ok (ToStd.new t)) ∧
    (∀ e, CW.write_all s buf = .error e →
      (ToStd.coreWrite CW).write_all (ToStd.new s) buf = .error e) ∧
    (∀ t, CW.flush s = .ok t →
      (ToStd.coreWrite CW).flush (ToStd.new s) = .ok (ToStd.new t)) ∧
    (∀ e, CW.flush s = .error e →
      (ToStd.coreWrite CW).flush (ToStd.new s) = .error e) := by
  refine ⟨fun bs t h => ?_, fun e h => ?_, fun bs t h => ?_, fun e h => ?_,
    fun bs t h => ?_, fun e h => ?_, ?_, fun k t h => ?_, fun e h => ?_,
    fun t h => ?_, fun e h => ?_, fun t h => ?_, fun e h => ?_,
    fun bs t h => ?_, fun e h => ?_, fun bs t h => ?_, fun e h => ?_,
    fun bs t h => ?_, fun e h => ?_, ?_, fun k t h => ?_, fun e h => ?_,
    fun t h => ?_, fun e h => ?_, fun t h => ?_, fun e h => ?_⟩ <;>
  simp_all [FromStd.hostRead, FromStd.hostBufRead, FromStd.hostWrite,
    ToStd.coreRead, ToStd.coreBufRead, ToStd.coreWrite, FromStd.new, ToStd.new]

/-- Witness for C6 on concrete runs: a successful fill through the
host face of `FromStd` over `natHostBufRead`, and a failing read through the
core face of `ToStd` over `errCoreRead` with the error passed through
unconverted. -/
theorem adapter_other_face_passthrough_witness :
    (FromStd.hostBufRead natHostBufRead).fill_buf (FromStd.new 3) = .ok ([7], FromStd.new 3) ∧
    (ToStd.coreRead errCoreRead).read (ToStd.new 4) 1 = .error ⟨4⟩ := by
  have h1 := adapter_other_face_passthrough natHostRead natHostBufRead
    natHostWrite errCoreRead errCoreBufRead errCoreWrite 3 1 [1]
  have h2 := adapter_other_face_passthrough natHostRead natHostBufRead
    natHostWrite errCoreRead errCoreBufRead errCoreWrite 4 1 [1]
  obtain ⟨-, -, -, -, f1, -⟩ := h1
  obtain ⟨-, -, -, -, -, -, -, -, -, -, -, -, -, -, r2, -⟩ := h2
  exact ⟨f1 [7] 3 (by decide), r2 ⟨4⟩ (by decide)⟩

/-- C8: a host buffered reader gains the core `Read`/`BufRead` capabilities
by direct delegation, with no wrapper: core `read` returns the host read's
bytes and count unchanged (or the converted error), core `fill_buf` returns
the host `fill_buf`'s buffered slice unchanged (or the converted error), and
core `consume` forwards its argument unchanged to the host `consume`. -/
theorem bufreader_core_capabilities {σ : Type}
    (R : HostRead σ) (B : HostBufRead σ) (s : σ) (n : Nat) :
    (∀ bs t, R.read s n = .ok (bs, t) → BufReader.read R s n = .ok (bs, t)) ∧
    (∀ e, R.read s n = .error e →
      BufReader.read R s n = .error (CoreError.ofHost e)) ∧
    (∀ bs t, B.fill_buf s = .ok (bs, t) → BufReader.fill_buf B s = .ok (bs, t)) ∧
    (∀ e, B.fill_buf s = .error e →
      BufReader.fill_buf B s = .error (CoreError.ofHost e)) ∧
    (BufReader.consume B s n = B.consume s n) := by
  refine ⟨fun bs t h => ?_, fun e h => ?_, fun bs t h => ?_, fun e h => ?_, ?_⟩ <;>
  simp_all [BufReader.read, BufReader.fill_buf, BufReader.consume]

/-- Witness for C8 on concrete runs: a successful read and fill over the
`Nat`-state host buffered reader, and a failing fill with the error
converted. -/
theorem bufreader_core_capabilities_witness :
    BufReader.read natHostRead 0 3 = .ok ([0, 0, 0], 3) ∧
    BufReader.fill_buf natHostBufRead 2 = .ok ([7], 2) ∧
    BufReader.fill_buf errHostBufRead 9 = .error (CoreError.ofHost ⟨9⟩) ∧
    BufReader.consume natHostBufRead 2 5 = 7 := by
  have h1 := bufreader_core_capabilities natHostRead natHostBufRead 0 3
  have h2 := bufreader_core_capabilities natHostRead natHostBufRead 2 5
  have h3 := bufreader_core_capabilities errHostRead errHostBufRead 9 1
  exact ⟨h1.1 [0, 0, 0] 3 (by decide), h2.2.2.1 [7] 2 (by decide),
    h3.2.2.2.1 ⟨9⟩ (by decide), h2.2.2.2.2⟩

/-- Helper: if every successful `write` appends exactly the accepted prefix
of its chunk to the observable log, then a successful `writeAllVia` run
appends the whole buffer. By strong induction on the buffer length. -/
theorem writeAllVia_all_accepted {σ : Type}
    (w : σ → List UInt8 → Except CoreError (Nat × σ)) (accepted : σ → List UInt8)
    (hw : ∀ t c k t', w t c = .ok (k, t') → accepted t' = accepted t ++ c.take k) :
    ∀ (N : Nat) (buf : List UInt8), buf.length ≤ N → ∀ s s',
      writeAllVia w s buf = .ok s' → accepted s' = accepted s ++ buf := by
  intro N
  induction N with
  | zero =>
    intro buf hlen s s' heq
    have hb : buf = [] := List.eq_nil_of_length_eq_zero (Nat.le_zero.mp hlen)
    subst hb
    unfold writeAllVia at heq
    simp at heq
    subst heq
    simp
  | succ N ih =>
    intro buf hlen s s' heq
    by_cases hb : buf = []
    · subst hb
      unfold writeAllVia at heq
      simp at heq
      subst heq
      simp
    · unfold writeAllVia at heq
      rw [dif_neg hb] at heq
      cases hw0 : w s buf with
      | error e =>
        rw [hw0] at heq
        simp at heq
      | ok p =>
        obtain ⟨n, s₁⟩ := p
        rw [hw0] at heq
        by_cases hn : n = 0
        · simp [hn] at heq
        · simp only [dif_neg hn] at heq
          have hlen' : (buf.drop n).length ≤ N := by
            have h1 : 1 ≤ n := Nat.one_le_iff_ne_zero.mpr hn
            have h2 : 0 < buf.length := List.length_pos.mpr hb
            simp only [List.length_drop]
            omega
          have ih' := ih (buf.drop n) hlen' s₁ s' heq
          rw [ih', hw s buf n s₁ hw0, List.append_assoc, List.take_append_drop]

/-- C7: a host buffered writer gains the full core `Write` capability by
delegation without a wrapper: core `write` returns the count the host write
accepted (or the converted error), core `flush` delegates to the host flush,
and the core `write_all` — running the provided loop over the delegated
`write` — writes every byte or fails: whenever it succeeds, the host
writer's observable log of accepted bytes has grown by exactly the whole
buffer. -/
theorem bufwriter_core_write_capability {σ : Type}
    (M : HostWrite σ) (accepted : σ → List UInt8) (s : σ) (buf : List UInt8) :
    (∀ k t, M.write s buf = .ok (k, t) → BufWriter.write M s buf = .ok (k, t)) ∧
    (∀ e, M.write s buf = .error e →
      BufWriter.write M s buf = .error (CoreError.ofHost e)) ∧
    (∀ t, M.flush s = .ok t → BufWriter.flush M s = .ok t) ∧
    (∀ e, M.flush s = .error e →
      BufWriter.flush M s = .error (CoreError.ofHost e)) ∧
    ((∀ t c k t', M.write t c = .ok (k, t') →
        k ≤ c.length ∧ accepted t' = accepted t ++ c.take k) →
      ∀ s', writeAllVia (BufWriter.write M) s buf = .ok s' →
        accepted s' = accepted s ++ buf) := by
  refine ⟨fun k t h => ?_, fun e h => ?_, fun t h => ?_, fun e h => ?_,
    fun hacc s' h => ?_⟩
  · simp_all [BufWriter.write]
  · simp_all [BufWriter.write]
  · simp_all [BufWriter.flush]
  · simp_all [BufWriter.flush]
  · refine writeAllVia_all_accepted (BufWriter.write M) accepted ?_ buf.length buf
      le_rfl s s' h
    intro t c k t' hcw
    have hmw : M.write t c = .ok (k, t') := by
      unfold BufWriter.write at hcw
      cases hmt : M.write t c with
      | ok r =>
        rw [hmt] at hcw
        simp only [Except.ok.injEq] at hcw
        rw [hcw]
      | error e =>
        rw [hmt] at hcw
        simp at hcw
    exact (hacc t c k t' hmw).2

/-- Witness for C7 on concrete runs over the log-keeping host writer (and
the failing one for the error path): delegated write and flush results, and
a complete `write_all` run whose log ends up extended by the whole buffer. -/
theorem bufwriter_core_write_capability_witness :
    BufWriter.write logHostWrite [9] [1, 2] = .ok (2, [9, 1, 2]) ∧
    BufWriter.flush errHostWrite 5 = .error (CoreError.ofHost ⟨5⟩) ∧
    ([1, 2, 3] : List UInt8) = ([] : List UInt8) ++ [1, 2, 3] := by
  have h1 := bufwriter_core_write_capability logHostWrite id [9] [1, 2]
  have h2 := bufwriter_core_write_capability errHostWrite (fun _ => []) 5 [1]
  have h3 := bufwriter_core_write_capability logHostWrite id [] [1, 2, 3]
  refine ⟨h1.1 2 [9, 1, 2] (by decide), h2.2.2.2.1 ⟨5⟩ (by decide), ?_⟩
  have hcontract : ∀ (t c : List UInt8) k t', logHostWrite.write t c = .ok (k, t') →
      k ≤ c.length ∧ id t' = id t ++ c.take k := by
    intro t c k t' hwr
    simp only [logHostWrite, Except.ok.injEq, Prod.mk.injEq] at hwr
    obtain ⟨hk, ht⟩ := hwr
    subst hk
    subst ht
    simp
  have hrun : writeAllVia (BufWriter.write logHostWrite) [] [1, 2, 3] = .ok [1, 2, 3] := by
    simp [writeAllVia, BufWriter.write, logHostWrite]
  exact h3.2.2.2.2 hcontract [1, 2, 3] hrun

end RustBitcoin
